import Mathlib

/-!
Verification development for the Qwen Telegram bot (`bot.py`): a shallow
embedding of the streamed-response aggregation, thought-filtering,
message-splitting, preference-store and message-handler logic, followed by
theorems settling the claims of the specification.

Modelling conventions:
* Python strings are `String` (sequences of Unicode code points, matching
  the Python code-point indexing and `len`).
* Python whitespace (for `str.strip()` and the regex class `\s`) is modelled
  by the ASCII whitespace characters; the exotic non-ASCII Unicode
  whitespace characters are not modelled.
* `re.IGNORECASE` on the fixed ASCII markers `<think>`/`</think>` is
  modelled by ASCII case folding.
* Recursions that are not structural in the source are given explicit fuel,
  always called with enough fuel for the fuel case never to be hit.
-/

/-- Python `str.isspace`-style character class used by `str.strip()` and the
regex class backslash-s, restricted to the ASCII whitespace characters. -/
def isPySpace (c : Char) : Bool :=
  c = ' ' || c = '\t' || c = '\n' || c = '\r' || c = '\x0b' || c = '\x0c'

/-- Python `str.strip()`: drop leading and trailing whitespace. -/
def pyStrip (l : List Char) : List Char :=
  ((l.dropWhile isPySpace).reverse.dropWhile isPySpace).reverse

/-- Python `str.strip()` lifted to `String`. -/
def pyStripStr (s : String) : String := String.mk (pyStrip s.toList)

/-- ASCII lower-casing, as used for the case-insensitive marker match. -/
def lowerAscii (c : Char) : Char :=
  if 'A' ≤ c && c ≤ 'Z' then Char.ofNat (c.toNat + 32) else c

/-- Does the text (second argument) start with the pattern (first argument),
comparing characters after ASCII lower-casing?  Models the `re.IGNORECASE`
match of the fixed marker tokens. -/
def matchesCI : List Char → List Char → Bool
  | p :: ps, c :: cs => (lowerAscii p == lowerAscii c) && matchesCI ps cs
  | rem, _ => rem.isEmpty

/-- Case-sensitive starts-with on character lists (Python `str.startswith`). -/
def startsWithChars : List Char → List Char → Bool
  | p :: ps, c :: cs => (p == c) && startsWithChars ps cs
  | rem, _ => rem.isEmpty

/-- Python `s.startswith(pre)`. -/
def strStartsWith (s pre : String) : Bool :=
  startsWithChars pre.toList s.toList

/-- Python slicing `s[n:]` (by code points). -/
def strDropChars (s : String) (n : Nat) : String :=
  String.mk (s.toList.drop n)

/-- In-order concatenation of a list of strings. -/
def concatAll : List String → String
  | [] => ""
  | s :: rest => s ++ concatAll rest

/-- The opening marker of a thinking region. -/
def openTagChars : List Char := String.toList "<think>"

/-- The closing marker of a thinking region. -/
def closeTagChars : List Char := String.toList "</think>"

/-- The lazy `.*?</think>` step of the pattern: scanning left to right,
find the first (case-insensitive) occurrence of the closing marker and
return the text after it; `none` when there is no closing marker at all. -/
def findCloseAfter : List Char → Option (List Char)
  | [] => none
  | c :: cs =>
    if matchesCI closeTagChars (c :: cs) then some ((c :: cs).drop 8)
    else findCloseAfter cs

/-- One left-to-right pass of
`re.sub` of the pattern "<think>.*?</think>" followed by optional whitespace, with the DOTALL and IGNORECASE flags:
at each position, if the opening marker matches and a closing marker occurs
later, excise through the closing marker and the whitespace after it and
continue after the excised region; otherwise emit the character and move on.
`fuel` bounds the recursion and is always supplied ≥ the list length. -/
def removeThinksF : Nat → List Char → List Char
  | 0, l => l
  | _ + 1, [] => []
  | fuel + 1, c :: cs =>
    if matchesCI openTagChars (c :: cs) then
      match findCloseAfter ((c :: cs).drop 7) with
      | some rest => removeThinksF fuel (rest.dropWhile isPySpace)
      | none => c :: removeThinksF fuel cs
    else c :: removeThinksF fuel cs

/-- The regex substitution pass of the thought filter. -/
def removeThinks (l : List Char) : List Char := removeThinksF l.length l

/-- The thought filter of `bot.py` (lines 131-132 and 171-173): when
`show_thoughts` is false, remove every thinking region and strip the
result; when true, the text is returned unchanged. -/
def filterThoughts (text : String) (show_thoughts : Bool) : String :=
  if show_thoughts then text
  else String.mk (pyStrip (removeThinks text.toList))

/-- Does the text contain a (case-insensitive) occurrence of the opening
marker anywhere? -/
def hasOpenTag : List Char → Bool
  | [] => false
  | c :: cs => matchesCI openTagChars (c :: cs) || hasOpenTag cs

/-- Decoded JSON values, as produced by Python `json.loads`: dicts, lists,
strings, numbers, booleans and null.  A number is kept as its lexeme: the
chunk navigation in `bot.py` never consults the numeric value. -/
inductive PyVal where
  | dict (entries : List (String × PyVal))
  | list (elems : List PyVal)
  | text (value : String)
  | number (lexeme : String)
  | boolean (truth : Bool)
  | nothing

/-- JSON inter-token whitespace accepted by `json.loads`. -/
def jsonWs (c : Char) : Bool :=
  [' ', '\t', '\n', '\r'].contains c

/-- Value of a hexadecimal digit. -/
def hexVal (c : Char) : Option Nat :=
  let n := c.toNat
  if 48 ≤ n ∧ n ≤ 57 then some (n - 48)
  else if 97 ≤ n ∧ n ≤ 102 then some (n - 87)
  else if 65 ≤ n ∧ n ≤ 70 then some (n - 55)
  else none

/-- Decode one backslash escape of a JSON string (the backslash itself is
already consumed).  A `\uXXXX` high surrogate is combined with a following
`\uYYYY` low surrogate; an unpaired surrogate becomes U+FFFD, since Lean
strings cannot hold lone surrogates. -/
def decodeEscape : List Char → Option (Char × List Char)
  | [] => none
  | e :: cs =>
    if e = '"' then some ('"', cs)
    else if e = '\\' then some ('\\', cs)
    else if e = '/' then some ('/', cs)
    else if e = 'b' then some ('\x08', cs)
    else if e = 'f' then some ('\x0c', cs)
    else if e = 'n' then some ('\n', cs)
    else if e = 'r' then some ('\r', cs)
    else if e = 't' then some ('\t', cs)
    else if e = 'u' then
      match cs with
      | h1 :: h2 :: h3 :: h4 :: cs2 =>
        match hexVal h1, hexVal h2, hexVal h3, hexVal h4 with
        | some a, some b, some c, some d =>
          let n := ((a * 16 + b) * 16 + c) * 16 + d
          if 0xD800 ≤ n && n ≤ 0xDBFF then
            match cs2 with
            | '\\' :: 'u' :: g1 :: g2 :: g3 :: g4 :: cs3 =>
              match hexVal g1, hexVal g2, hexVal g3, hexVal g4 with
              | some a2, some b2, some c2, some d2 =>
                let m := ((a2 * 16 + b2) * 16 + c2) * 16 + d2
                if 0xDC00 ≤ m && m ≤ 0xDFFF then
                  some (Char.ofNat (0x10000 + (n - 0xD800) * 0x400 + (m - 0xDC00)), cs3)
                else some ('�', cs2)
              | _, _, _, _ => some ('�', cs2)
            | _ => some ('�', cs2)
          else if 0xDC00 ≤ n && n ≤ 0xDFFF then some ('�', cs2)
          else some (Char.ofNat n, cs2)
        | _, _, _, _ => none
      | _ => none
    else none

/-- Parse the body of a JSON string literal (the opening quote is already
consumed), returning the decoded characters and the input after the
closing quote.  Unescaped control characters are rejected, as by the
strict `json.loads`. -/
def parseJStringF : Nat → List Char → Option (List Char × List Char)
  | 0, _ => none
  | _ + 1, [] => none
  | fuel + 1, c :: cs =>
    if c = '"' then some ([], cs)
    else if c = '\\' then
      match decodeEscape cs with
      | some (ch, rest) =>
        match parseJStringF fuel rest with
        | some (s, r) => some (ch :: s, r)
        | none => none
      | none => none
    else if c.toNat < 0x20 then none
    else
      match parseJStringF fuel cs with
      | some (s, r) => some (c :: s, r)
      | none => none

/-- Parse the optional fraction part of a JSON number. -/
def parseFracPart : List Char → Option (List Char × List Char)
  | '.' :: r =>
    let ds := r.takeWhile Char.isDigit
    if ds.isEmpty then none else some ('.' :: ds, r.dropWhile Char.isDigit)
  | l => some ([], l)

/-- Parse the optional exponent part of a JSON number. -/
def parseExpPart : List Char → Option (List Char × List Char)
  | [] => some ([], [])
  | e :: r =>
    if e = 'e' || e = 'E' then
      let (sgn, r1) :=
        match r with
        | '+' :: rr => (['+'], rr)
        | '-' :: rr => (['-'], rr)
        | _ => ([], r)
      let ds := r1.takeWhile Char.isDigit
      if ds.isEmpty then none
      else some (e :: (sgn ++ ds), r1.dropWhile Char.isDigit)
    else some ([], e :: r)

/-- Parse a JSON number lexeme: `-? (0 | [1-9][0-9]*) frac? exp?`. -/
def parseNumber (l : List Char) : Option (List Char × List Char) :=
  let (sgn, l1) :=
    match l with
    | '-' :: r => (['-'], r)
    | _ => ([], l)
  match l1 with
  | [] => none
  | c :: _ =>
    if c.isDigit then
      let ip := l1.takeWhile Char.isDigit
      let r1 := l1.dropWhile Char.isDigit
      if 1 < ip.length && ip.head? = some '0' then none
      else
        match parseFracPart r1 with
        | some (fp, r2) =>
          match parseExpPart r2 with
          | some (ep, r3) => some (sgn ++ ip ++ fp ++ ep, r3)
          | none => none
        | none => none
    else none

mutual

/-- Parse one JSON value (no leading whitespace), returning it and the
rest of the input.  The `[DONE]`-free payloads of the stream are decoded
with this, mirroring `json.loads`.  Per `json.loads` defaults, the
non-standard `NaN`, `Infinity` and `-Infinity` are accepted. -/
def parseValue : Nat → List Char → Option (PyVal × List Char)
  | 0, _ => none
  | fuel + 1, l =>
    match l with
    | [] => none
    | c :: cs =>
      if c = '\x7b' then
        match cs.dropWhile jsonWs with
        | '\x7d' :: r => some (PyVal.dict [], r)
        | l2 => parseObjMembers fuel l2 []
      else if c = '[' then
        match cs.dropWhile jsonWs with
        | ']' :: r => some (PyVal.list [], r)
        | l2 => parseArrMembers fuel l2 []
      else if c = '"' then
        match parseJStringF (cs.length + 1) cs with
        | some (s, r) => some (PyVal.text (String.mk s), r)
        | none => none
      else if startsWithChars (String.toList "null") l then some (PyVal.nothing, l.drop 4)
      else if startsWithChars (String.toList "true") l then some (PyVal.boolean true, l.drop 4)
      else if startsWithChars (String.toList "false") l then some (PyVal.boolean false, l.drop 5)
      else if startsWithChars (String.toList "NaN") l then some (PyVal.number "NaN", l.drop 3)
      else if startsWithChars (String.toList "Infinity") l then some (PyVal.number "Infinity", l.drop 8)
      else if startsWithChars (String.toList "-Infinity") l then some (PyVal.number "-Infinity", l.drop 9)
      else
        match parseNumber l with
        | some (lex, r) => some (PyVal.number (String.mk lex), r)
        | none => none

/-- Parse the members of a JSON object after the opening brace (at least one
member expected; the empty object is handled by the caller).  Members are
kept in arrival order; `lookupObj` below gives the last binding of a key,
matching the Python dict construction. -/
def parseObjMembers : Nat → List Char → List (String × PyVal) → Option (PyVal × List Char)
  | 0, _, _ => none
  | fuel + 1, l, acc =>
    match l with
    | '"' :: cs =>
      match parseJStringF (cs.length + 1) cs with
      | some (k, r1) =>
        match r1.dropWhile jsonWs with
        | ':' :: r2 =>
          match parseValue fuel (r2.dropWhile jsonWs) with
          | some (v, r3) =>
            match r3.dropWhile jsonWs with
            | ',' :: r4 => parseObjMembers fuel (r4.dropWhile jsonWs) (acc ++ [(String.mk k, v)])
            | '\x7d' :: r4 => some (PyVal.dict (acc ++ [(String.mk k, v)]), r4)
            | _ => none
          | none => none
        | _ => none
      | none => none
    | _ => none

/-- Parse the items of a JSON array after the opening bracket (at least one
item expected; the empty array is handled by the caller). -/
def parseArrMembers : Nat → List Char → List PyVal → Option (PyVal × List Char)
  | 0, _, _ => none
  | fuel + 1, l, acc =>
    match parseValue fuel l with
    | some (v, r1) =>
      match r1.dropWhile jsonWs with
      | ',' :: r2 => parseArrMembers fuel (r2.dropWhile jsonWs) (acc ++ [v])
      | ']' :: r2 => some (PyVal.list (acc ++ [v]), r2)
      | _ => none
    | none => none

end

/-- Python `json.loads`: parse a complete JSON document; anything but trailing
whitespace after the value is an error. -/
def parseJson (s : String) : Option PyVal :=
  match parseValue (2 * s.length + 2) (s.toList.dropWhile jsonWs) with
  | some (j, r) => if (r.dropWhile jsonWs).isEmpty then some j else none
  | none => none

/-- Look a key up in a decoded object.  The last binding wins, matching the
Python dict that `json.loads` builds by successive insertion. -/
def lookupObj : List (String × PyVal) → String → Option PyVal
  | [], _ => none
  | (k, v) :: rest, key =>
    match lookupObj rest key with
    | some v2 => some v2
    | none => if k = key then some v else none

/-- The per-chunk navigation of `bot.py` lines 116-119:
`chunk_data.get("choices")` must be truthy, `chunk_data["choices"][0]`
must support `.get("delta")`, the delta must be truthy, and the content
must be truthy, else nothing is appended (every shape error is caught by
the surrounding per-chunk handlers and skipped). -/
def chunkContent (j : PyVal) : Option String :=
  match j with
  | PyVal.dict top =>
    match lookupObj top "choices" with
    | some (PyVal.list (c0 :: _)) =>
      match c0 with
      | PyVal.dict c0f =>
        match lookupObj c0f "delta" with
        | some (PyVal.dict df) =>
          match df with
          | [] => none
          | _ :: _ =>
            match lookupObj df "content" with
            | some (PyVal.text s) => if s = "" then none else some s
            | _ => none
        | _ => none
      | _ => none
    | _ => none
  | _ => none

/-- The stream-consumption loop of `invoke_llm_api` (`bot.py` lines
108-123): each line is stripped; lines without the `data: ` mark are
ignored; the first `[DONE]` payload stops aggregation; other payloads are
decoded as JSON and their content delta (if any) appended to the
accumulator; undecodable or ill-shaped payloads are skipped. -/
def processStream : List String → String → String
  | [], acc => acc
  | l :: ls, acc =>
    if strStartsWith (pyStripStr l) "data: " then
      if strDropChars (pyStripStr l) 6 = "[DONE]" then acc
      else
        match parseJson (strDropChars (pyStripStr l) 6) with
        | some chunk =>
          match chunkContent chunk with
          | some content => processStream ls (acc ++ content)
          | none => processStream ls acc
        | none => processStream ls acc
    else processStream ls acc

/-- The aggregated response reconstructed from the stream lines. -/
def aggregate (lines : List String) : String := processStream lines ""

/-- The content delta a single stream line contributes (`none` for ignored,
sentinel, undecodable or delta-free lines).  Mirrors the branch structure
of `processStream`. -/
def lineDelta (l : String) : Option String :=
  if strStartsWith (pyStripStr l) "data: " then
    if strDropChars (pyStripStr l) 6 = "[DONE]" then none
    else
      match parseJson (strDropChars (pyStripStr l) 6) with
      | some chunk => chunkContent chunk
      | none => none
  else none

/-- Is the line the end-of-stream sentinel `data: [DONE]` (after the
per-line strip)? -/
def isSentinel (l : String) : Bool :=
  strStartsWith (pyStripStr l) "data: " && strDropChars (pyStripStr l) 6 = "[DONE]"

/-- The in-memory per-user preference map `user_prefs` (`bot.py` line 63).
The inner one-key dict holding the show_thoughts boolean is modelled by the boolean itself.
Python dict semantics: lookup by key, assignment updates in place or
appends a fresh entry. -/
abbrev PrefStore := List (Int × Bool)

/-- Python dict lookup (`user_prefs.get(user_id, default)` yielding the
stored entry, `none` when absent). -/
def dictGet : PrefStore → Int → Option Bool
  | [], _ => none
  | (k, v) :: rest, key => if k = key then some v else dictGet rest key

/-- Python dict assignment `user_prefs[user_id] = ...`: update the
existing entry in place, or append a new one. -/
def dictSet : PrefStore → Int → Bool → PrefStore
  | [], k, v => [(k, v)]
  | (k2, v2) :: rest, k, v =>
    if k2 = k then (k, v) :: rest else (k2, v2) :: dictSet rest k v

/-- The preference read of `handle_message` (`bot.py` line 158):
`user_prefs.get(user_id, default).get("show_thoughts", False)` with an empty-dict default. -/
def get_show_thoughts (prefs : PrefStore) (uid : Int) : Bool :=
  (dictGet prefs uid).getD false

/-- The `/think` command handler `toggle_think` (`bot.py` lines 140-149):
flip the flag (defaulting to false), store the new value, and report it
(the confirmation reply states the new state). -/
def toggle_think (prefs : PrefStore) (uid : Int) : Bool × PrefStore :=
  let current := (dictGet prefs uid).getD false
  let newPref := !current
  (newPref, dictSet prefs uid newPref)

/-- The environment-determined outcome of the completion call in
`invoke_llm_api`: the missing-credential early return, a non-200 HTTP
status, a transport (`aiohttp.ClientError`) failure, any other unexpected
exception, or a successful 200 response with its stream lines. -/
inductive ApiOutcome where
  | missingKey
  | badStatus (code : Nat)
  | clientError (msg : String)
  | unexpectedError
  | streamed (lines : List String)

/-- The completion call `invoke_llm_api` (`bot.py` lines 71-133): returns a fixed diagnostic
string on each failure path; on success aggregates the stream, applies the
thought filter when `show_thoughts` is false, and substitutes the fixed
fallback when the (filtered) text is empty. -/
def invoke_llm_api (api : ApiOutcome) (show_thoughts : Bool) : String :=
  match api with
  | ApiOutcome.missingKey => "Ошибка: Токен OPENROUTER_API_KEY не найден в .env"
  | ApiOutcome.badStatus code => "Ошибка при обращении к API: " ++ toString code
  | ApiOutcome.clientError msg => "Ошибка при обращении к API: " ++ msg
  | ApiOutcome.unexpectedError => "Произошла непредвиденная ошибка."
  | ApiOutcome.streamed lines =>
    let filtered := filterThoughts (aggregate lines) show_thoughts
    if filtered = "" then "Не удалось получить ответ от модели." else filtered

/-- The `range(0, len, 4096)` slicing loop, with fuel (always called with
fuel ≥ the list length). -/
def chunksF : Nat → List Char → List (List Char)
  | 0, _ => []
  | _ + 1, [] => []
  | fuel + 1, c :: cs => ((c :: cs).take 4096) :: chunksF fuel ((c :: cs).drop 4096)

/-- The message-delivery split of `handle_message` (`bot.py` lines
179-181): contiguous 4096-code-point slices, in order. -/
def splitMessage (t : String) : List String :=
  (chunksF t.length t.toList).map String.mk

/-- The observable outcome of one `handle_message` run: the handler
returned without replying (falsy text), the un-guarded
`bot.delete_message` raised and the exception propagated out of the
handler before any final reply, the final text was sent as ordered
segments, the empty-after-filtering notice was sent, or the falsy-response
notice was sent. -/
inductive HandlerOutcome where
  | ignored
  | raised
  | sentSegments (segs : List String)
  | onlyThoughtsNotice
  | noResponseNotice
deriving DecidableEq

/-- The message handler `handle_message` (`bot.py` lines 151-183) with explicit state passing
for `user_prefs` and the behavior of the environment (`api` for the completion
call, `deleteOk` for whether `bot.delete_message` succeeds): read the
preference, send the processing indicator, call the API, delete the
indicator (un-guarded: a failure propagates), then filter, special-case
emptiness, and split-and-send. -/
def handle_message (prefs : PrefStore) (uid : Int) (text : Option String)
    (api : ApiOutcome) (deleteOk : Bool) : HandlerOutcome × PrefStore :=
  match text with
  | none => (HandlerOutcome.ignored, prefs)
  | some t =>
    if t = "" then (HandlerOutcome.ignored, prefs)
    else
      let show_thoughts := get_show_thoughts prefs uid
      let response_text := invoke_llm_api api show_thoughts
      if deleteOk then
        if response_text = "" then (HandlerOutcome.noResponseNotice, prefs)
        else
          let filtered := filterThoughts response_text show_thoughts
          if filtered = "" then (HandlerOutcome.onlyThoughtsNotice, prefs)
          else (HandlerOutcome.sentSegments (splitMessage filtered), prefs)
      else (HandlerOutcome.raised, prefs)

/-! ## Helper lemmas -/

theorem length_dropWhile_le (p : Char → Bool) (l : List Char) :
    (l.dropWhile p).length ≤ l.length := by
  induction l with
  | nil => simp
  | cons c cs ih =>
    cases hp : p c <;> simp [List.dropWhile, hp]
    omega

theorem dropWhile_dropWhile (p : Char → Bool) (l : List Char) :
    List.dropWhile p (List.dropWhile p l) = List.dropWhile p l := by
  induction l with
  | nil => simp
  | cons c cs ih =>
    cases hp : p c <;> simp [List.dropWhile, hp, ih]

theorem dropWhile_append_singleton (p : Char → Bool) (a : Char) (h : p a = false)
    (u : List Char) : List.dropWhile p (u ++ [a]) = List.dropWhile p u ++ [a] := by
  induction u with
  | nil => simp [List.dropWhile, h]
  | cons b u2 ih =>
    cases hb : p b <;> simp [List.dropWhile, hb, ih]

theorem head_not_p_of_dropWhile_eq_self (p : Char → Bool) (a : Char) (t : List Char)
    (h : List.dropWhile p (a :: t) = a :: t) : p a = false := by
  cases hp : p a with
  | false => rfl
  | true =>
    exfalso
    rw [List.dropWhile_cons, hp] at h
    simp only [if_true] at h
    have hlen := congrArg List.length h
    have := length_dropWhile_le p t
    simp at hlen
    omega

theorem dropWhile_back_of_front (p : Char → Bool) (y : List Char)
    (h : List.dropWhile p y = y) :
    List.dropWhile p ((List.dropWhile p y.reverse).reverse) =
      (List.dropWhile p y.reverse).reverse := by
  cases y with
  | nil => simp
  | cons a t =>
    have ha : p a = false := head_not_p_of_dropWhile_eq_self p a t h
    have h1 : (a :: t).reverse = t.reverse ++ [a] := by simp
    rw [h1, dropWhile_append_singleton p a ha t.reverse]
    rw [List.reverse_append]
    simp only [List.reverse_cons, List.reverse_nil, List.nil_append, List.singleton_append]
    rw [List.dropWhile_cons, ha]
    simp

theorem pyStrip_idem (l : List Char) : pyStrip (pyStrip l) = pyStrip l := by
  unfold pyStrip
  have hy : List.dropWhile isPySpace (List.dropWhile isPySpace l) =
      List.dropWhile isPySpace l := dropWhile_dropWhile isPySpace l
  have hz := dropWhile_back_of_front isPySpace (List.dropWhile isPySpace l) hy
  rw [hz, List.reverse_reverse, dropWhile_dropWhile]

theorem removeThinksF_no_tag (fuel : Nat) :
    ∀ l : List Char, l.length ≤ fuel → hasOpenTag l = false → removeThinksF fuel l = l := by
  induction fuel with
  | zero =>
    intro l hl _
    have : l = [] := List.eq_nil_of_length_eq_zero (Nat.le_zero.mp hl)
    subst this
    rfl
  | succ fuel ih =>
    intro l hl ht
    cases l with
    | nil => rfl
    | cons c cs =>
      have hsplit : matchesCI openTagChars (c :: cs) = false ∧ hasOpenTag cs = false := by
        have := ht
        rw [hasOpenTag] at this
        exact Bool.or_eq_false_iff.mp this
      rw [removeThinksF, hsplit.1]
      simp only [Bool.false_eq_true, if_false]
      have hcs : cs.length ≤ fuel := by
        have := hl
        simp only [List.length_cons] at this
        omega
      rw [ih cs hcs hsplit.2]

theorem removeThinks_no_tag (l : List Char) (h : hasOpenTag l = false) :
    removeThinks l = l :=
  removeThinksF_no_tag l.length l (Nat.le_refl _) h

theorem processStream_characterization (lines : List String) :
    ∀ acc : String,
      processStream lines acc =
        acc ++ concatAll ((lines.takeWhile fun l => !isSentinel l).filterMap lineDelta) := by
  induction lines with
  | nil =>
    intro acc
    simp [processStream, concatAll, String.append_empty]
  | cons l ls ih =>
    intro acc
    cases h1 : strStartsWith (pyStripStr l) "data: " with
    | false =>
      rw [processStream, h1]
      simp only [Bool.false_eq_true, if_false]
      have hsent : isSentinel l = false := by simp [isSentinel, h1]
      have hdelta : lineDelta l = none := by rw [lineDelta, h1]; simp
      rw [List.takeWhile_cons, hsent]
      simp only [Bool.not_false, if_true, List.filterMap_cons, hdelta]
      exact ih acc
    | true =>
      by_cases h2 : strDropChars (pyStripStr l) 6 = "[DONE]"
      · rw [processStream, h1]
        simp only [if_true, h2, if_pos rfl]
        have hsent : isSentinel l = true := by simp [isSentinel, h1, h2]
        rw [List.takeWhile_cons, hsent]
        simp [concatAll, String.append_empty]
      · have hsent : isSentinel l = false := by simp [isSentinel, h1, h2]
        rw [processStream, h1]
        simp only [if_true, if_neg h2]
        rw [List.takeWhile_cons, hsent]
        simp only [Bool.not_false, if_true, List.filterMap_cons]
        have hline : lineDelta l = (match parseJson (strDropChars (pyStripStr l) 6) with
            | some chunk => chunkContent chunk
            | none => none) := by
          rw [lineDelta, h1]
          simp only [if_true, if_neg h2]
        cases hp : parseJson (strDropChars (pyStripStr l) 6) with
        | none =>
          rw [hp] at hline
          simp only at hline
          rw [hline]
          exact ih acc
        | some chunk =>
          rw [hp] at hline
          simp only at hline
          rw [hline]
          show (match chunkContent chunk with
            | some content => processStream ls (acc ++ content)
            | none => processStream ls acc) = _
          cases hc : chunkContent chunk with
          | none => exact ih acc
          | some content =>
            show processStream ls (acc ++ content) =
              acc ++ concatAll (content ::
                List.filterMap lineDelta (List.takeWhile (fun l => !isSentinel l) ls))
            rw [ih (acc ++ content)]
            rw [String.append_assoc]
            rfl

theorem processStream_skip (bad : String)
    (h1 : strStartsWith (pyStripStr bad) "data: " = true)
    (h2 : strDropChars (pyStripStr bad) 6 ≠ "[DONE]")
    (h3 : parseJson (strDropChars (pyStripStr bad) 6) = none) :
    ∀ (pre post : List String) (acc : String),
      processStream (pre ++ bad :: post) acc = processStream (pre ++ post) acc := by
  intro pre
  induction pre with
  | nil =>
    intro post acc
    simp only [List.nil_append]
    rw [processStream, h1]
    simp only [if_true, if_neg h2, h3]
  | cons l pre2 ih =>
    intro post acc
    simp only [List.cons_append]
    rw [processStream, processStream]
    cases hs1 : strStartsWith (pyStripStr l) "data: " with
    | false =>
      simp only [Bool.false_eq_true, if_false]
      exact ih post acc
    | true =>
      simp only [if_true]
      by_cases hs2 : strDropChars (pyStripStr l) 6 = "[DONE]"
      · rw [if_pos hs2, if_pos hs2]
      · rw [if_neg hs2, if_neg hs2]
        cases hp : parseJson (strDropChars (pyStripStr l) 6) with
        | none => exact ih post acc
        | some chunk =>
          show (match chunkContent chunk with
            | some content => processStream (pre2 ++ bad :: post) (acc ++ content)
            | none => processStream (pre2 ++ bad :: post) acc) =
            (match chunkContent chunk with
            | some content => processStream (pre2 ++ post) (acc ++ content)
            | none => processStream (pre2 ++ post) acc)
          cases hc : chunkContent chunk with
          | none => exact ih post acc
          | some content => exact ih post (acc ++ content)

theorem chunksF_concat (fuel : Nat) :
    ∀ l : List Char, l.length ≤ fuel →
      concatAll ((chunksF fuel l).map String.mk) = String.mk l := by
  induction fuel with
  | zero =>
    intro l hl
    have : l = [] := List.eq_nil_of_length_eq_zero (Nat.le_zero.mp hl)
    subst this
    rfl
  | succ fuel ih =>
    intro l hl
    cases l with
    | nil => rfl
    | cons c cs =>
      rw [chunksF]
      simp only [List.map_cons]
      rw [concatAll]
      have hdrop : ((c :: cs).drop 4096).length ≤ fuel := by
        rw [List.length_drop]
        simp only [List.length_cons] at hl ⊢
        omega
      rw [ih _ hdrop]
      show String.mk ((c :: cs).take 4096) ++ String.mk ((c :: cs).drop 4096) = _
      rw [show ∀ a b : List Char, String.mk a ++ String.mk b = String.mk (a ++ b) from fun a b => rfl]
      rw [List.take_append_drop]

theorem chunksF_mem_length (fuel : Nat) :
    ∀ (l : List Char) (s : List Char), s ∈ chunksF fuel l → s.length ≤ 4096 := by
  induction fuel with
  | zero =>
    intro l s hs
    simp [chunksF] at hs
  | succ fuel ih =>
    intro l s hs
    cases l with
    | nil => simp [chunksF] at hs
    | cons c cs =>
      rw [chunksF] at hs
      rcases List.mem_cons.mp hs with h | h
      · subst h
        rw [List.length_take]
        omega
      · exact ih _ s h

theorem dictGet_dictSet_self (l : PrefStore) (k : Int) (v : Bool) :
    dictGet (dictSet l k v) k = some v := by
  induction l with
  | nil => simp [dictGet, dictSet]
  | cons e rest ih =>
    obtain ⟨k2, v2⟩ := e
    by_cases hk : k2 = k
    · simp [dictSet, hk, dictGet]
    · simp [dictSet, hk, dictGet, ih]

theorem dictGet_dictSet_ne (l : PrefStore) (k k2 : Int) (v : Bool) (h : k2 ≠ k) :
    dictGet (dictSet l k v) k2 = dictGet l k2 := by
  induction l with
  | nil => simp [dictGet, dictSet, Ne.symm h]
  | cons e rest ih =>
    obtain ⟨k3, v3⟩ := e
    by_cases hk : k3 = k
    · subst hk
      simp [dictSet, dictGet, Ne.symm h]
    · simp [dictSet, hk, dictGet, ih]

theorem invoke_llm_api_ne_empty (api : ApiOutcome) (st : Bool) :
    invoke_llm_api api st ≠ "" := by
  have hpre : ∀ t : String, ("Ошибка при обращении к API: " ++ t) ≠ "" := by
    intro t hc
    have hd := congrArg String.data hc
    rw [String.data_append] at hd
    have := List.append_eq_nil.mp hd
    have hfalse : ("Ошибка при обращении к API: " : String).data = [] := this.1
    simp at hfalse
  cases api with
  | missingKey =>
    show ("Ошибка: Токен OPENROUTER_API_KEY не найден в .env" : String) ≠ ""
    decide
  | badStatus code => exact hpre (toString code)
  | clientError msg => exact hpre msg
  | unexpectedError =>
    show ("Произошла непредвиденная ошибка." : String) ≠ ""
    decide
  | streamed lines =>
    rw [invoke_llm_api]
    by_cases h : filterThoughts (aggregate lines) st = ""
    · rw [if_pos h]
      decide
    · rw [if_neg h]
      exact h

/-! ## Claims -/

/-- Claim C1 (code bug): for an incoming message whose aggregated model
response is exactly `"<think>only thoughts</think>"` and a user whose
`show_thoughts` preference is false, the delivered text is NOT the fixed
"response contained only hidden reasoning" notice: `invoke_llm_api` has
already filtered the text with the same flag and, seeing an empty result,
substituted the "could not obtain a response from the model" fallback, so
the dedicated notice branch of the handler is bypassed and the fallback is
delivered as an ordinary message segment. -/
theorem c1_all_hidden_divergence :
    aggregate ["data: \x7b\"choices\": [\x7b\"delta\": \x7b\"content\": \"<think>only thoughts</think>\"\x7d\x7d]\x7d",
        "data: [DONE]"] = "<think>only thoughts</think>" ∧
    get_show_thoughts [] 1 = false ∧
    (handle_message [] 1 (some "hi") (ApiOutcome.streamed
      ["data: \x7b\"choices\": [\x7b\"delta\": \x7b\"content\": \"<think>only thoughts</think>\"\x7d\x7d]\x7d",
       "data: [DONE]"]) true).1 =
      HandlerOutcome.sentSegments ["Не удалось получить ответ от модели."] ∧
    (handle_message [] 1 (some "hi") (ApiOutcome.streamed
      ["data: \x7b\"choices\": [\x7b\"delta\": \x7b\"content\": \"<think>only thoughts</think>\"\x7d\x7d]\x7d",
       "data: [DONE]"]) true).1 ≠
      HandlerOutcome.onlyThoughtsNotice := by
  refine ⟨by decide, rfl, by decide, by decide⟩

/-- Claim C2, counterexample: the claim says a failed deletion of the
processing indicator is only logged and the final segments are still
delivered; in the code `bot.delete_message` is not guarded, so on the same
concrete input the handler delivers the segments when deletion succeeds
but raises (delivering nothing) when it fails. -/
theorem c2_delete_failure_counterexample :
    (handle_message [] 1 (some "hi") (ApiOutcome.streamed
      ["data: \x7b\"choices\": [\x7b\"delta\": \x7b\"content\": \"Hello\"\x7d\x7d]\x7d"]) false).1 =
      HandlerOutcome.raised ∧
    (handle_message [] 1 (some "hi") (ApiOutcome.streamed
      ["data: \x7b\"choices\": [\x7b\"delta\": \x7b\"content\": \"Hello\"\x7d\x7d]\x7d"]) true).1 =
      HandlerOutcome.sentSegments ["Hello"] := by
  constructor
  · decide
  · decide

/-- Claim C2 as amended: removing the processing indicator is NOT
best-effort: for every incoming non-empty message, if deleting the
indicator fails the exception propagates out of the handler and the final
response segments are not delivered. -/
theorem c2_delete_failure_amended (prefs : PrefStore) (uid : Int) (t : String)
    (api : ApiOutcome) (ht : t ≠ "") :
    handle_message prefs uid (some t) api false = (HandlerOutcome.raised, prefs) := by
  simp [handle_message, ht]

/-- Witness for the amended claim C2 at a concrete input. -/
theorem c2_delete_failure_witness :
    ("hi" : String) ≠ "" ∧
    handle_message [] 1 (some "hi") ApiOutcome.missingKey false = (HandlerOutcome.raised, []) :=
  ⟨by decide, c2_delete_failure_amended [] 1 "hi" ApiOutcome.missingKey (by decide)⟩

/-- Claim C3, counterexample: the thought filter is not idempotent.
Filtering `"<thi<think>a</think>nk>X</think>"` once splices the leftover
fragments into the new thinking region `"<think>X</think>"`; a second
filtering removes it, so `filter(filter(t,false),false) ≠ filter(t,false)`. -/
theorem c3_idempotence_counterexample :
    filterThoughts (filterThoughts "<thi<think>a</think>nk>X</think>" false) false ≠
      filterThoughts "<thi<think>a</think>nk>X</think>" false := by decide

/-- Claim C3 as amended: the thought filter is idempotent when `s` is true
(it is the identity), and when `s` is false it is idempotent provided the
single filtering pass does not splice text into a new occurrence of the
opening marker — i.e. whenever the filtered output contains no
(case-insensitive) `<think>` marker. -/
theorem c3_idempotence_amended (t : String) (s : Bool)
    (h : s = true ∨ hasOpenTag (filterThoughts t false).toList = false) :
    filterThoughts (filterThoughts t s) s = filterThoughts t s := by
  cases s with
  | true => rfl
  | false =>
    rcases h with h | h
    · exact absurd h (by decide)
    · show String.mk (pyStrip (removeThinks (filterThoughts t false).toList)) =
        filterThoughts t false
      rw [removeThinks_no_tag _ h]
      show String.mk (pyStrip (pyStrip (removeThinks t.toList))) = filterThoughts t false
      rw [pyStrip_idem]
      rfl

/-- Witness for the amended claim C3 at a concrete input. -/
theorem c3_idempotence_witness :
    ((false : Bool) = true ∨
      hasOpenTag (filterThoughts "<think>a</think>Hello" false).toList = false) ∧
    filterThoughts (filterThoughts "<think>a</think>Hello" false) false =
      filterThoughts "<think>a</think>Hello" false :=
  ⟨Or.inr (by decide),
   c3_idempotence_amended "<think>a</think>Hello" false (Or.inr (by decide))⟩

/-- Claim C4: the message-delivery split into contiguous 4096-code-point
slices yields segments each of length at most 4096 whose in-order
concatenation reconstructs the input exactly, and the empty input yields
no segments. -/
theorem c4_split_reconstruction (t : String) :
    concatAll (splitMessage t) = t ∧
    (∀ s ∈ splitMessage t, s.length ≤ 4096) ∧
    (t = "" → splitMessage t = []) := by
  refine ⟨?_, ?_, ?_⟩
  · rw [splitMessage, chunksF_concat t.length t.toList (Nat.le_of_eq rfl)]
    rfl
  · intro s hs
    rw [splitMessage] at hs
    obtain ⟨c, hc, rfl⟩ := List.mem_map.mp hs
    exact chunksF_mem_length t.length t.toList c hc
  · intro h
    subst h
    rfl

/-- Witness for claim C4 at a concrete input. -/
theorem c4_split_witness :
    concatAll (splitMessage "hello") = "hello" ∧
    ("hello" : String) ∈ splitMessage "hello" ∧
    ("hello" : String).length ≤ 4096 ∧
    splitMessage "" = [] :=
  ⟨(c4_split_reconstruction "hello").1, by decide,
   (c4_split_reconstruction "hello").2.1 "hello" (by decide),
   (c4_split_reconstruction "").2.2 rfl⟩

/-- Claim C5: stream aggregation stops at the first `[DONE]` sentinel —
the aggregated response is the in-order concatenation of exactly the
content deltas of the lines preceding the first sentinel line; in
particular deltas A, B, `[DONE]`, C aggregate to `"AB"`. -/
theorem c5_aggregation_sentinel :
    (∀ lines : List String,
      aggregate lines =
        concatAll ((lines.takeWhile fun l => !isSentinel l).filterMap lineDelta)) ∧
    aggregate ["data: \x7b\"choices\": [\x7b\"delta\": \x7b\"content\": \"A\"\x7d\x7d]\x7d",
        "data: \x7b\"choices\": [\x7b\"delta\": \x7b\"content\": \"B\"\x7d\x7d]\x7d",
        "data: [DONE]",
        "data: \x7b\"choices\": [\x7b\"delta\": \x7b\"content\": \"C\"\x7d\x7d]\x7d"] = "AB" := by
  constructor
  · intro lines
    rw [aggregate, processStream_characterization lines ""]
    exact String.empty_append _
  · decide

/-- Claim C6: the preference store defaults to hidden and the toggle flips
and reports the new value: with no stored entry, `get_show_thoughts` is
false; one toggle stores and reports true; a second stores and reports
false. -/
theorem c6_preference_default_toggle (prefs : PrefStore) (uid : Int)
    (h : dictGet prefs uid = none) :
    get_show_thoughts prefs uid = false ∧
    (toggle_think prefs uid).1 = true ∧
    get_show_thoughts (toggle_think prefs uid).2 uid = true ∧
    (toggle_think (toggle_think prefs uid).2 uid).1 = false ∧
    get_show_thoughts (toggle_think (toggle_think prefs uid).2 uid).2 uid = false := by
  simp [get_show_thoughts, toggle_think, h, dictGet_dictSet_self]

/-- Witness for claim C6 at a concrete input. -/
theorem c6_preference_witness :
    dictGet ([] : PrefStore) 7 = none ∧
    get_show_thoughts ([] : PrefStore) 7 = false ∧
    (toggle_think ([] : PrefStore) 7).1 = true ∧
    get_show_thoughts (toggle_think ([] : PrefStore) 7).2 7 = true ∧
    (toggle_think (toggle_think ([] : PrefStore) 7).2 7).1 = false ∧
    get_show_thoughts (toggle_think (toggle_think ([] : PrefStore) 7).2 7).2 7 = false := by
  have h := c6_preference_default_toggle ([] : PrefStore) 7 rfl
  exact ⟨rfl, h.1, h.2.1, h.2.2.1, h.2.2.2.1, h.2.2.2.2⟩

/-- Claim C7: a single undecodable `data: ` frame does not fail
aggregation: it is skipped and the remaining lines aggregate as if it were
absent; in particular `[not-json, delta X, [DONE]]` aggregates to `"X"`. -/
theorem c7_malformed_frame_tolerance :
    (∀ (pre post : List String) (bad : String),
      strStartsWith (pyStripStr bad) "data: " = true →
      strDropChars (pyStripStr bad) 6 ≠ "[DONE]" →
      parseJson (strDropChars (pyStripStr bad) 6) = none →
      aggregate (pre ++ bad :: post) = aggregate (pre ++ post)) ∧
    aggregate ["data: not-json",
        "data: \x7b\"choices\": [\x7b\"delta\": \x7b\"content\": \"X\"\x7d\x7d]\x7d",
        "data: [DONE]"] = "X" := by
  constructor
  · intro pre post bad h1 h2 h3
    exact processStream_skip bad h1 h2 h3 pre post ""
  · decide

/-- Witness for claim C7 at a concrete input. -/
theorem c7_malformed_frame_witness :
    strStartsWith (pyStripStr "data: not-json") "data: " = true ∧
    strDropChars (pyStripStr "data: not-json") 6 ≠ "[DONE]" ∧
    parseJson (strDropChars (pyStripStr "data: not-json") 6) = none ∧
    aggregate ([] ++ "data: not-json" ::
        ["data: \x7b\"choices\": [\x7b\"delta\": \x7b\"content\": \"X\"\x7d\x7d]\x7d",
         "data: [DONE]"]) =
      aggregate ([] ++
        ["data: \x7b\"choices\": [\x7b\"delta\": \x7b\"content\": \"X\"\x7d\x7d]\x7d",
         "data: [DONE]"]) :=
  ⟨by decide, by decide, rfl,
   c7_malformed_frame_tolerance.1 []
     ["data: \x7b\"choices\": [\x7b\"delta\": \x7b\"content\": \"X\"\x7d\x7d]\x7d",
      "data: [DONE]"]
     "data: not-json" (by decide) (by decide) rfl⟩

/-- Claim C8: filtering is a no-op when thoughts are shown —
`filter(t, true) = t` for every text, and with the preference set to true
the handler delivers the aggregated response unchanged (split only into
platform-sized segments). -/
theorem c8_filter_noop_shown :
    (∀ t : String, filterThoughts t true = t) ∧
    (∀ (prefs : PrefStore) (uid : Int) (t : String) (lines : List String),
      t ≠ "" → get_show_thoughts prefs uid = true → aggregate lines ≠ "" →
      (handle_message prefs uid (some t) (ApiOutcome.streamed lines) true).1 =
        HandlerOutcome.sentSegments (splitMessage (aggregate lines))) := by
  constructor
  · intro t
    rfl
  · intro prefs uid t lines ht hshow hagg
    have hinv : invoke_llm_api (ApiOutcome.streamed lines) (get_show_thoughts prefs uid) =
        aggregate lines := by
      rw [hshow, invoke_llm_api]
      show (if filterThoughts (aggregate lines) true = "" then
        "Не удалось получить ответ от модели." else filterThoughts (aggregate lines) true) = _
      have hft : filterThoughts (aggregate lines) true = aggregate lines := rfl
      rw [hft, if_neg hagg]
    simp only [handle_message, if_neg ht, if_true]
    rw [hinv, if_neg hagg]
    have hft : filterThoughts (aggregate lines) (get_show_thoughts prefs uid) =
        aggregate lines := by
      rw [hshow]
      rfl
    rw [hft, if_neg hagg]

/-- Witness for claim C8 at a concrete input. -/
theorem c8_filter_noop_witness :
    ("hi" : String) ≠ "" ∧
    get_show_thoughts [((1 : Int), true)] 1 = true ∧
    aggregate ["data: \x7b\"choices\": [\x7b\"delta\": \x7b\"content\": \"Hello\"\x7d\x7d]\x7d"] ≠ "" ∧
    (handle_message [((1 : Int), true)] 1 (some "hi")
      (ApiOutcome.streamed
        ["data: \x7b\"choices\": [\x7b\"delta\": \x7b\"content\": \"Hello\"\x7d\x7d]\x7d"]) true).1 =
      HandlerOutcome.sentSegments (splitMessage
        (aggregate ["data: \x7b\"choices\": [\x7b\"delta\": \x7b\"content\": \"Hello\"\x7d\x7d]\x7d"])) :=
  ⟨by decide, by decide, by decide,
   c8_filter_noop_shown.2 [((1 : Int), true)] 1 "hi"
     ["data: \x7b\"choices\": [\x7b\"delta\": \x7b\"content\": \"Hello\"\x7d\x7d]\x7d"]
     (by decide) (by decide) (by decide)⟩

/-- Claim C9: `invoke_llm_api` returns a non-empty string on every exit
path, so the falsy-response branch of the handler (the "could not obtain a
response" reply of line 183) is unreachable. -/
theorem c9_nonempty_invoke_result :
    (∀ (api : ApiOutcome) (st : Bool), invoke_llm_api api st ≠ "") ∧
    (∀ (prefs : PrefStore) (uid : Int) (text : Option String) (api : ApiOutcome) (d : Bool),
      (handle_message prefs uid text api d).1 ≠ HandlerOutcome.noResponseNotice) := by
  refine ⟨invoke_llm_api_ne_empty, ?_⟩
  intro prefs uid text api d
  cases text with
  | none => simp [handle_message]
  | some t =>
    by_cases ht : t = ""
    · simp [handle_message, ht]
    · simp only [handle_message, if_neg ht]
      cases d with
      | false => simp
      | true =>
        simp only [if_true]
        rw [if_neg (invoke_llm_api_ne_empty api (get_show_thoughts prefs uid))]
        by_cases hf : filterThoughts (invoke_llm_api api (get_show_thoughts prefs uid))
            (get_show_thoughts prefs uid) = ""
        · rw [if_pos hf]
          simp
        · rw [if_neg hf]
          simp

/-- Claim C10: preference reads never mutate the store (`handle_message`
leaves `user_prefs` unchanged on every path, creating no entry), and a
toggle for one user leaves the stored preference of every other user unchanged. -/
theorem c10_preference_frame :
    (∀ (prefs : PrefStore) (uid : Int) (text : Option String) (api : ApiOutcome) (d : Bool),
      (handle_message prefs uid text api d).2 = prefs) ∧
    (∀ (prefs : PrefStore) (uid uid2 : Int), uid2 ≠ uid →
      dictGet (toggle_think prefs uid).2 uid2 = dictGet prefs uid2) := by
  constructor
  · intro prefs uid text api d
    cases text with
    | none => rfl
    | some t =>
      simp only [handle_message]
      split_ifs <;> rfl
  · intro prefs uid uid2 h
    show dictGet (dictSet prefs uid (!(dictGet prefs uid).getD false)) uid2 = dictGet prefs uid2
    exact dictGet_dictSet_ne prefs uid uid2 _ h

/-- Witness for claim C10 at a concrete input. -/
theorem c10_preference_frame_witness :
    (handle_message [((2 : Int), true)] 1 (some "hi") ApiOutcome.missingKey true).2 =
      [((2 : Int), true)] ∧
    ((2 : Int) ≠ (1 : Int)) ∧
    dictGet (toggle_think [((2 : Int), true)] 1).2 2 = dictGet [((2 : Int), true)] 2 :=
  ⟨c10_preference_frame.1 [((2 : Int), true)] 1 (some "hi") ApiOutcome.missingKey true,
   by decide,
   c10_preference_frame.2 [((2 : Int), true)] 1 2 (by decide)⟩
